import Mathlib

/-!
# markdown-blog: navigation, active-path resolution and the render-and-cache handler

A shallow embedding of `internal/app/app.go`.

* Go strings are modelled by Lean strings; concatenation, equality and the
  empty-string test carry over unchanged.
* Package-level variables (`MdDir`, `Env`, `Title`, `Index`) are the fields of
  `Globals`; `Index` is the only one the request path assigns.
* A Go panic (index out of range) is the `none` result of an `Option`.
* The operating system is an explicit state `FS` threaded through `showDoc`
  (the embedding of `show`, a reserved word here).  The application logger is
  a separate output channel: the lines a handler emits are returned in the
  `Response`, they are not part of `FS`.
* The markup converter, the sanitizer, the view engine behind `ctx.View` and
  `structs.Map` are external and are taken as parameters.
-/

namespace MarkdownBlog

/-! ## Strings and paths -/

/-- Go `strings.TrimPrefix`: drop `pre` from the front of `s` when `s` starts with it. -/
def trimPrefix (s pre : String) : String :=
  if pre.data.isPrefixOf s.data then String.mk (s.data.drop pre.data.length) else s

/-- Split a path at every `/`; always yields at least one element. -/
def splitSlash : List Char → List (List Char)
  | [] => [[]]
  | c :: cs =>
    match splitSlash cs with
    | [] => [[]]
    | h :: t => if c = '/' then [] :: h :: t else (c :: h) :: t

/-- One step of `filepath.Clean` on a path element, `out` being the stack of
elements kept so far (innermost first): empty and `.` elements are dropped,
`..` removes the preceding real element, is dropped at the root, and is kept
at the front of a relative path. -/
def cleanStep (rooted : Bool) (out : List (List Char)) (e : List Char) : List (List Char) :=
  if e = [] ∨ e = ['.'] then out
  else if e = ['.', '.'] then
    match out with
    | [] => if rooted then [] else [e]
    | top :: rest => if top = ['.', '.'] then e :: out else rest
  else e :: out

/-- The elements of the cleaned path, outermost first. -/
def cleanElems (cs : List Char) : List (List Char) :=
  ((splitSlash cs).foldl (cleanStep (cs.head? = some '/')) []).reverse

/-- Join path elements, with a leading `/` for a rooted path. -/
def joinElems (rooted : Bool) (es : List (List Char)) : String :=
  if rooted then String.mk ('/' :: List.intercalate ['/'] es)
  else String.mk (List.intercalate ['/'] es)

/-- Go `filepath.Clean` for slash-separated paths. -/
def pathClean (p : String) : String :=
  let rooted : Bool := p.data.head? = some '/'
  let es := cleanElems p.data
  if es = [] ∧ rooted = false then "." else joinElems rooted es

/-- The directory reached after walking the path elements `es` one by one,
as a cleaned path. -/
def walkTo (rooted : Bool) (es : List (List Char)) : String :=
  let out := (es.foldl (cleanStep rooted) []).reverse
  if out = [] ∧ rooted = false then "." else joinElems rooted out

/-- The directories a lookup of `p` passes through, in order: one for every
element written before the last `/` of `p`, `..` elements included. -/
def dirsWalked (p : String) : List String :=
  let rooted : Bool := p.data.head? = some '/'
  (splitSlash (p.data.reverse.dropWhile (fun c => c ≠ '/')).reverse).inits.map (walkTo rooted)

/-- Go `filepath.Dir`: everything up to the last `/`, cleaned. -/
def pathDir (p : String) : String :=
  pathClean (String.mk (p.data.reverse.dropWhile (fun c => c ≠ '/')).reverse)

/-- The directories that must exist for `d` to exist, outermost first, `d`
itself being the last.  The working directory, the root and chains of `..`
are not listed: they always exist. -/
def ancestors (d : String) : List String :=
  let rooted : Bool := d.data.head? = some '/'
  (((cleanElems d.data).inits.filter
      (fun es => es ≠ [] ∧ es.getLast? ≠ some ['.', '.'])).map (joinElems rooted))

/-! ## Node model and globals -/

/-- Modelled from the spec: the declaration of `utils.Node` is not among the
sources.  A node has a display name, a link, a directory flag and an ordered
list of children; `app.go` reads `Link`, `IsDir` and `Children`. -/
structure Node where
  name : String
  link : String
  isDir : Bool
  children : List Node
deriving Repr

/-- The package-level variables set by `initParams`. -/
structure Globals where
  MdDir : String
  Env : String
  Title : String
  Index : String
deriving DecidableEq, Repr

def LayoutFile : String := "web/views/layouts/layout.html"

def ArticlesDir : String := "cache/articles/"

def DefaultPort : Int := 5006

/-- The part of an iris request context the handlers read: the route
parameter `f` and the request path. -/
structure Ctx where
  paramF : String
  path : String
deriving DecidableEq, Repr

/-! ## parsePort -/

/-- Embedding of `parsePort`; `isSet` is `ctx.IsSet("port")` and `flag` is
`ctx.Int("port")`. -/
def parsePort (isSet : Bool) (flag : Int) : Int :=
  let port := DefaultPort
  let port := if isSet then flag else port
  let port := if port ≤ 0 ∨ port ≥ 65535 then DefaultPort else port
  port

/-! ## Navigation -/

/-- Embedding of `getFirstNav`; `none` is the index-out-of-range panic of
`node.Children[0]` on a directory without children. -/
def getFirstNav : Node → Option Node
  | ⟨name, link, isDir, children⟩ =>
    if !isDir then some ⟨name, link, isDir, children⟩
    else
      match children with
      | [] => none
      | c :: _ => getFirstNav c

/-- The two nested `range` loops of `getNavs`, appending one entry per item. -/
def collectNavs {ε : Type} (structsMap : Node → ε) (tree : Node) : List ε :=
  tree.children.foldl
    (fun navs v => v.children.foldl (fun navs item => navs ++ [structsMap item]) navs) []

/-- Embedding of `getNavs`, given the tree `utils.Explorer` returned; `none`
is the panic of `tree.Children[0]` or of `getFirstNav`. -/
def getNavs {ε : Type} (structsMap : Node → ε) (tree : Node) : Option (List ε × Node) :=
  let navs := collectNavs structsMap tree
  match tree.children with
  | [] => none
  | v :: _ =>
    match getFirstNav v with
    | none => none
    | some firstNav => some (navs, firstNav)

/-- Embedding of `getActiveNav`. -/
def getActiveNav (g : Globals) (ctx : Ctx) : String :=
  let f := ctx.paramF
  let f := if f = "" then g.Index else f
  f

/-- The default document in the words of the specification: descending from
`n` through the first child of each directory reaches the non-directory node
`leaf`.  Not taken from the code; `getFirstNav` is compared with it. -/
inductive SpecDescendsTo : Node → Node → Prop
  | here (n : Node) : n.isDir = false → SpecDescendsTo n n
  | down (n c leaf : Node) (rest : List Node) :
      n.isDir = true → n.children = c :: rest → SpecDescendsTo c leaf → SpecDescendsTo n leaf

/-- The view data the middleware registers on the context. -/
structure ViewData (ε : Type) where
  title : String
  nav : List ε
  activeNav : String
  layout : String

/-- The value `RunWeb` computes once, before serving: is the default document
to be derived from the tree? -/
def setIndexAuto (g : Globals) : Bool :=
  if g.Index = "" then true else false

/-- Embedding of the middleware registered by `app.Use` in `RunWeb`: returns
the globals after the request and the view data, `none` when `getNavs`
panics (before `Index` is touched). -/
def middleware {ε : Type} (structsMap : Node → ε) (auto : Bool) (g : Globals)
    (tree : Node) (ctx : Ctx) : Option (Globals × ViewData ε) :=
  match getNavs structsMap tree with
  | none => none
  | some (navs, firstNav) =>
    let firstLink := trimPrefix firstNav.link "/"
    let g := if auto = true ∧ g.Index ≠ firstLink then { g with Index := firstLink } else g
    some (g, ⟨g.Title, navs, getActiveNav g ctx, LayoutFile⟩)

/-- The globals after a sequence of requests, each with the tree the explorer
returns at that time; a request whose middleware panics leaves them as they
were. -/
def serve {ε : Type} (structsMap : Node → ε) (auto : Bool) :
    Globals → List (Node × Ctx) → Globals
  | g, [] => g
  | g, (tree, ctx) :: rest =>
    match middleware structsMap auto g tree ctx with
    | none => serve structsMap auto g rest
    | some (g1, _) => serve structsMap auto g1 rest

/-- The globals after `RunWeb` has served the requests `reqs`, starting from
the globals `initParams` set. -/
def runWeb {ε : Type} (structsMap : Node → ε) (g : Globals) (reqs : List (Node × Ctx)) :
    Globals :=
  serve structsMap (setIndexAuto g) g reqs

/-! ## The filesystem seen by `show`

The state is indexed by the path strings the program hands to the `os`
package.  `files` holds the regular files, `dirs` the directories,
`unreadable` the paths whose contents cannot be read and `denied` the paths
that cannot be created or opened for writing.  Path strings are compared as
written, and a write that fails does so on opening the file: links between
paths and failures halfway through a write are outside the model. -/

abbrev Bytes := List Nat

structure FS where
  files : List (String × Bytes)
  dirs : List String
  unreadable : List String
  denied : List String
deriving DecidableEq, Repr

/-- The contents recorded for path `p`, if any. -/
def fileAt : List (String × Bytes) → String → Option Bytes
  | [], _ => none
  | (q, c) :: t, p => if q = p then some c else fileAt t p

/-- Replace the contents recorded for `p`, or record them when there are none. -/
def upsert : List (String × Bytes) → String → Bytes → List (String × Bytes)
  | [], p, b => [(p, b)]
  | (q, c) :: t, p, b => if q = p then (p, b) :: t else (q, c) :: upsert t p b

/-- Is `d` a directory: one on record, or one that always exists. -/
def dirExists (fs : FS) (d : String) : Bool :=
  decide (d ∈ fs.dirs) || decide (ancestors d = [])

/-- Go `os.Stat`, reduced to whether it returns a nil error. -/
def stat (fs : FS) (p : String) : Bool :=
  dirExists fs p || (fileAt fs.files p).isSome

/-- Go `os.ReadFile`: the contents, or `none` for an error. -/
def readFile (fs : FS) (p : String) : Option Bytes :=
  if dirExists fs p = true ∨ p ∈ fs.unreadable then none else fileAt fs.files p

/-- Create the directories of a chain in order, stopping at the first one that
cannot be created; the flag tells whether all of them exist at the end. -/
def mkdirChain (fs : FS) : List String → Bool × FS
  | [] => (true, fs)
  | p :: ps =>
    if p ∈ fs.dirs then mkdirChain fs ps
    else if (fileAt fs.files p).isSome = true ∨ p ∈ fs.denied then (false, fs)
    else mkdirChain { fs with dirs := fs.dirs ++ [p] } ps

/-- Go `os.MkdirAll`: create `d` along with any necessary parents. -/
def mkdirAll (fs : FS) (d : String) : Bool × FS :=
  mkdirChain fs (ancestors d)

/-- Does every directory that a lookup of `p` passes through exist? -/
def parentWalk (fs : FS) (p : String) : Bool :=
  (dirsWalked p).all (dirExists fs)

/-- Go `os.WriteFile`: create or truncate `p` and store `b` in it.  Fails,
leaving the state alone, when `p` is a directory, may not be written, or a
directory on the way to it is missing. -/
def writeFile (fs : FS) (p : String) (b : Bytes) : Bool × FS :=
  if p ∈ fs.dirs ∨ p ∈ fs.denied ∨ parentWalk fs p = false then (false, fs)
  else (true, { fs with files := upsert fs.files p b })

/-! ## show -/

/-- A line sent to the application logger. -/
inductive LogLine where
  | notFound (mdfile path : String)
  | readFileError (mdfile path : String)
  | writeFileError (path : String)
deriving DecidableEq, Repr

/-- What a handler leaves on the response: the status code (200 unless set),
the template name handed to `ctx.View`, and the lines the handler logs. -/
structure Response where
  statusCode : Nat
  view : Option String
  log : List LogLine
deriving DecidableEq, Repr

/-- Embedding of `show`.  `convert` is `blackfriday.MarkdownCommon` and
`sanitize` is `bluemonday.UGCPolicy().SanitizeBytes`.  `render fs name` tells
whether the view engine behind `ctx.View` renders the template `name`, which
it loads from disk and parses as a template; when it does not, `ctx.View`
sets status 500. -/
def showDoc (render : FS → String → Bool) (convert sanitize : Bytes → Bytes) (g : Globals)
    (ctx : Ctx) (fs : FS) : FS × Response :=
  let f := getActiveNav g ctx
  let mdfile := g.MdDir ++ f ++ ".md"
  let articlefile := ArticlesDir ++ f ++ ".html"
  if stat fs mdfile = false then
    (fs, ⟨404, none, [LogLine.notFound mdfile ctx.path]⟩)
  else
    match readFile fs mdfile with
    | none => (fs, ⟨500, none, [LogLine.readFileError mdfile ctx.path]⟩)
    | some content =>
      let fs := (mkdirAll fs (pathDir articlefile)).2
      let raw := convert content
      let html := sanitize raw
      let w := writeFile fs articlefile html
      if w.1 = false then (w.2, ⟨500, none, [LogLine.writeFileError ctx.path]⟩)
      else if render w.2 articlefile = true then (w.2, ⟨200, some articlefile, []⟩)
      else (w.2, ⟨500, some articlefile, []⟩)

/-! ## Sample data -/

/-- A content root `docs/` holding `guide/intro.md` with body `# Hello`. -/
def sampleFS : FS :=
  ⟨[("docs/guide/intro.md", [35, 32, 72, 101, 108, 108, 111])], ["docs", "docs/guide"], [], []⟩

def sampleGlobals : Globals := ⟨"docs/", "dev", "Blog", ""⟩

/-- A stand-in converter: tags its input with a leading byte. -/
def sampleConvert (b : Bytes) : Bytes := 1 :: b

/-- A stand-in sanitizer: tags its input with a leading byte. -/
def sampleSanitize (b : Bytes) : Bytes := 2 :: b

/-- Does a byte sequence contain `{{`, the opening of a template action? -/
def hasAction : Bytes → Bool
  | [] => false
  | [_] => false
  | a :: b :: t => (a == 123 && b == 123) || hasAction (b :: t)

/-- A stand-in view engine: a template renders when its file is there and
holds no template action. -/
def sampleRender (fs : FS) (name : String) : Bool :=
  match fileAt fs.files name with
  | some b => !hasAction b
  | none => false

/-- A content root `docs/` holding `tpl.md` with body `{{ .Nope`. -/
def actionFS : FS :=
  ⟨[("docs/tpl.md", [123, 123, 32, 46, 78, 111, 112, 101])], ["docs"], [], []⟩

def tplCtx : Ctx := ⟨"tpl", "/tpl"⟩

def introCtx : Ctx := ⟨"guide/intro", "/guide/intro"⟩

def missingCtx : Ctx := ⟨"missing/page", "/missing/page"⟩

def rootCtx : Ctx := ⟨"", "/"⟩

/-- The explorer tree of `docs/`: one grouping, holding a directory and a file. -/
def docsTree : Node :=
  ⟨"", "", true, [⟨"docs", "", true,
    [⟨"guide", "/guide", true, [⟨"intro", "/guide/intro", false, []⟩]⟩,
     ⟨"notes", "/notes", false, []⟩]⟩]⟩

/-- The same tree after `about.md` has been added to the content root. -/
def docsTreeLater : Node :=
  ⟨"", "", true, [⟨"docs", "", true,
    [⟨"about", "/about", false, []⟩,
     ⟨"guide", "/guide", true, [⟨"intro", "/guide/intro", false, []⟩]⟩,
     ⟨"notes", "/notes", false, []⟩]⟩]⟩

/-- A root without groupings. -/
def emptyRoot : Node := ⟨"", "", true, []⟩

/-- A root whose only grouping is a directory without children. -/
def emptyGrouping : Node := ⟨"", "", true, [⟨"docs", "", true, []⟩]⟩

/-! ## Lemmas on the filesystem model -/

theorem fileAt_upsert_self (l : List (String × Bytes)) (p : String) (b : Bytes) :
    fileAt (upsert l p b) p = some b := by
  induction l with
  | nil => simp [upsert, fileAt]
  | cons hd t ih =>
    obtain ⟨q, c⟩ := hd
    by_cases h : q = p
    · simp [upsert, fileAt, h]
    · simp [upsert, fileAt, h, ih]

theorem fileAt_upsert_ne (l : List (String × Bytes)) (p q : String) (b : Bytes) (hne : q ≠ p) :
    fileAt (upsert l p b) q = fileAt l q := by
  induction l with
  | nil =>
    have h : ¬ p = q := fun e => hne e.symm
    simp [upsert, fileAt, h]
  | cons hd t ih =>
    obtain ⟨r, c⟩ := hd
    by_cases h : r = p
    · subst h
      have h2 : ¬ r = q := fun e => hne e.symm
      simp [upsert, fileAt, h2]
    · by_cases h3 : r = q
      · subst h3
        simp [upsert, fileAt, h]
      · simp [upsert, fileAt, h, h3, ih]

theorem upsert_upsert (l : List (String × Bytes)) (p : String) (b : Bytes) :
    upsert (upsert l p b) p b = upsert l p b := by
  induction l with
  | nil => simp [upsert]
  | cons hd t ih =>
    obtain ⟨q, c⟩ := hd
    by_cases h : q = p
    · simp [upsert, h]
    · simp [upsert, h, ih]

theorem mkdirChain_files (fs : FS) (ch : List String) :
    (mkdirChain fs ch).2.files = fs.files ∧ (mkdirChain fs ch).2.unreadable = fs.unreadable ∧
      (mkdirChain fs ch).2.denied = fs.denied := by
  induction ch generalizing fs with
  | nil => simp [mkdirChain]
  | cons p ps ih =>
    unfold mkdirChain
    split
    · exact ih fs
    · split
      · simp
      · simpa using ih { fs with dirs := fs.dirs ++ [p] }

/-! ## The branches of `show` -/

theorem showDoc_notFound (render : FS → String → Bool)
    (convert sanitize : Bytes → Bytes) (g : Globals) (ctx : Ctx) (fs : FS)
    (hstat : stat fs (g.MdDir ++ getActiveNav g ctx ++ ".md") = false) :
    showDoc render convert sanitize g ctx fs =
      (fs, ⟨404, none, [LogLine.notFound (g.MdDir ++ getActiveNav g ctx ++ ".md") ctx.path]⟩) := by
  simp [showDoc, hstat]

theorem showDoc_readError (render : FS → String → Bool)
    (convert sanitize : Bytes → Bytes) (g : Globals) (ctx : Ctx) (fs : FS)
    (hstat : stat fs (g.MdDir ++ getActiveNav g ctx ++ ".md") = true)
    (hread : readFile fs (g.MdDir ++ getActiveNav g ctx ++ ".md") = none) :
    showDoc render convert sanitize g ctx fs =
      (fs, ⟨500, none,
        [LogLine.readFileError (g.MdDir ++ getActiveNav g ctx ++ ".md") ctx.path]⟩) := by
  simp [showDoc, hstat, hread]

theorem showDoc_writeError (render : FS → String → Bool)
    (convert sanitize : Bytes → Bytes) (g : Globals) (ctx : Ctx) (fs : FS)
    (content : Bytes)
    (hstat : stat fs (g.MdDir ++ getActiveNav g ctx ++ ".md") = true)
    (hread : readFile fs (g.MdDir ++ getActiveNav g ctx ++ ".md") = some content)
    (hwrite : (writeFile (mkdirAll fs (pathDir (ArticlesDir ++ getActiveNav g ctx ++ ".html"))).2
      (ArticlesDir ++ getActiveNav g ctx ++ ".html") (sanitize (convert content))).1 = false) :
    showDoc render convert sanitize g ctx fs =
      ((writeFile (mkdirAll fs (pathDir (ArticlesDir ++ getActiveNav g ctx ++ ".html"))).2
          (ArticlesDir ++ getActiveNav g ctx ++ ".html") (sanitize (convert content))).2,
        ⟨500, none, [LogLine.writeFileError ctx.path]⟩) := by
  simp [showDoc, hstat, hread, hwrite]

theorem showDoc_success (render : FS → String → Bool)
    (convert sanitize : Bytes → Bytes) (g : Globals) (ctx : Ctx) (fs : FS)
    (content : Bytes)
    (hstat : stat fs (g.MdDir ++ getActiveNav g ctx ++ ".md") = true)
    (hread : readFile fs (g.MdDir ++ getActiveNav g ctx ++ ".md") = some content)
    (hwrite : (writeFile (mkdirAll fs (pathDir (ArticlesDir ++ getActiveNav g ctx ++ ".html"))).2
      (ArticlesDir ++ getActiveNav g ctx ++ ".html") (sanitize (convert content))).1 = true) :
    showDoc render convert sanitize g ctx fs =
      ((writeFile (mkdirAll fs (pathDir (ArticlesDir ++ getActiveNav g ctx ++ ".html"))).2
          (ArticlesDir ++ getActiveNav g ctx ++ ".html") (sanitize (convert content))).2,
        ⟨if render
            (writeFile (mkdirAll fs (pathDir (ArticlesDir ++ getActiveNav g ctx ++ ".html"))).2
              (ArticlesDir ++ getActiveNav g ctx ++ ".html") (sanitize (convert content))).2
            (ArticlesDir ++ getActiveNav g ctx ++ ".html") = true then 200 else 500,
          some (ArticlesDir ++ getActiveNav g ctx ++ ".html"), []⟩) := by
  simp only [showDoc, hstat, hread, hwrite]
  generalize render _ _ = r
  cases r <;> simp

theorem writeFile_ok_state (fs : FS) (p : String) (b : Bytes) (h : (writeFile fs p b).1 = true) :
    (writeFile fs p b).2 = { fs with files := upsert fs.files p b } := by
  unfold writeFile at h ⊢
  split
  · rename_i hc
    simp [hc] at h
  · rfl

theorem writeFile_fail_state (fs : FS) (p : String) (b : Bytes)
    (h : (writeFile fs p b).1 = false) : (writeFile fs p b).2 = fs := by
  unfold writeFile at h ⊢
  split
  · rfl
  · rename_i hc
    simp [hc] at h

/-! ## A second render -/

theorem mkdirChain_mem (fs : FS) (ch : List String) (p : String) (h : p ∈ fs.dirs) :
    p ∈ (mkdirChain fs ch).2.dirs := by
  induction ch generalizing fs with
  | nil => simpa [mkdirChain] using h
  | cons q qs ih =>
    unfold mkdirChain
    split
    · exact ih fs h
    · split
      · exact h
      · exact ih _ (by simp [h])

theorem mkdirChain_length (fs : FS) (ch : List String) :
    fs.dirs.length ≤ (mkdirChain fs ch).2.dirs.length := by
  induction ch generalizing fs with
  | nil => simp [mkdirChain]
  | cons q qs ih =>
    unfold mkdirChain
    split
    · exact ih fs
    · split
      · exact le_refl _
      · have := ih { fs with dirs := fs.dirs ++ [q] }
        simp at this
        omega

theorem mkdirChain_not_mem (fs : FS) (ch : List String) (p : String)
    (hfile : (fileAt fs.files p).isSome = true) (h : p ∉ fs.dirs) :
    p ∉ (mkdirChain fs ch).2.dirs := by
  induction ch generalizing fs with
  | nil => simpa [mkdirChain] using h
  | cons q qs ih =>
    unfold mkdirChain
    split
    · exact ih fs hfile h
    · split
      · exact h
      · rename_i hq
        refine ih _ hfile ?_
        have hne : p ≠ q := by
          intro e
          subst e
          exact hq (Or.inl hfile)
        simp [h, hne]

theorem mkdirChain_idem (fs : FS) (ch : List String) :
    mkdirChain (mkdirChain fs ch).2 ch = mkdirChain fs ch := by
  induction ch generalizing fs with
  | nil => simp [mkdirChain]
  | cons q qs ih =>
    by_cases h1 : q ∈ fs.dirs
    · have e : mkdirChain fs (q :: qs) = mkdirChain fs qs := by
        rw [mkdirChain, if_pos h1]
      rw [e]
      have hm := mkdirChain_mem fs qs q h1
      rw [mkdirChain, if_pos hm]
      exact ih fs
    · by_cases h2 : (fileAt fs.files q).isSome = true ∨ q ∈ fs.denied
      · have e : mkdirChain fs (q :: qs) = (false, fs) := by
          rw [mkdirChain, if_neg h1, if_pos h2]
        rw [e]
        exact e
      · have e : mkdirChain fs (q :: qs) = mkdirChain { fs with dirs := fs.dirs ++ [q] } qs := by
          rw [mkdirChain, if_neg h1, if_neg h2]
        rw [e]
        have hm := mkdirChain_mem { fs with dirs := fs.dirs ++ [q] } qs q (by simp)
        rw [mkdirChain, if_pos hm]
        exact ih _

theorem mkdirChain_files_grow (fs : FS) (ch : List String) (files2 : List (String × Bytes))
    (hstable : (mkdirChain fs ch).2 = fs)
    (hgrow : ∀ p, (fileAt fs.files p).isSome = true → (fileAt files2 p).isSome = true) :
    mkdirChain { fs with files := files2 } ch =
      ((mkdirChain fs ch).1, { fs with files := files2 }) := by
  induction ch with
  | nil => simp [mkdirChain]
  | cons q qs ih =>
    by_cases h1 : q ∈ fs.dirs
    · have e : mkdirChain fs (q :: qs) = mkdirChain fs qs := by
        rw [mkdirChain, if_pos h1]
      rw [e] at hstable ⊢
      rw [mkdirChain, if_pos (by simpa using h1)]
      exact ih hstable
    · by_cases h2 : (fileAt fs.files q).isSome = true ∨ q ∈ fs.denied
      · have e : mkdirChain fs (q :: qs) = (false, fs) := by
          rw [mkdirChain, if_neg h1, if_pos h2]
        rw [e]
        have h3 : (fileAt files2 q).isSome = true ∨ q ∈ fs.denied := by
          rcases h2 with h | h
          · exact Or.inl (hgrow q h)
          · exact Or.inr h
        rw [mkdirChain, if_neg (by simpa using h1), if_pos (by simpa using h3)]
      · exfalso
        have e : mkdirChain fs (q :: qs) = mkdirChain { fs with dirs := fs.dirs ++ [q] } qs := by
          rw [mkdirChain, if_neg h1, if_neg h2]
        rw [e] at hstable
        have hl := mkdirChain_length { fs with dirs := fs.dirs ++ [q] } qs
        rw [hstable] at hl
        simp at hl

theorem fileAt_upsert_isSome (l : List (String × Bytes)) (p q : String) (b : Bytes)
    (h : (fileAt l q).isSome = true) : (fileAt (upsert l p b) q).isSome = true := by
  by_cases e : q = p
  · subst e
    rw [fileAt_upsert_self]
    rfl
  · rw [fileAt_upsert_ne _ _ _ _ e]
    exact h

theorem md_ne_html (a b : String) : a ++ ".md" ≠ b ++ ".html" := by
  intro h
  have h2 := congrArg (fun s => s.data.getLast?) h
  simp at h2



theorem readFile_eq_some (fs : FS) (p : String) (c : Bytes) :
    readFile fs p = some c ↔
      (p ∉ fs.dirs ∧ ancestors p ≠ [] ∧ p ∉ fs.unreadable ∧ fileAt fs.files p = some c) := by
  unfold readFile dirExists
  by_cases h1 : p ∈ fs.dirs
  · simp [h1]
  · by_cases h2 : ancestors p = []
    · simp [h1, h2]
    · by_cases h3 : p ∈ fs.unreadable
      · simp [h1, h2, h3]
      · simp [h1, h2, h3]

theorem stat_of_file (fs : FS) (p : String) (c : Bytes) (h : fileAt fs.files p = some c) :
    stat fs p = true := by
  simp [stat, h]

theorem mkdirAll_idem (fs : FS) (d : String) : mkdirAll (mkdirAll fs d).2 d = mkdirAll fs d :=
  mkdirChain_idem fs (ancestors d)

theorem mkdirAll_files (fs : FS) (d : String) :
    (mkdirAll fs d).2.files = fs.files ∧ (mkdirAll fs d).2.unreadable = fs.unreadable ∧
      (mkdirAll fs d).2.denied = fs.denied :=
  mkdirChain_files fs (ancestors d)

theorem mkdirAll_not_mem (fs : FS) (d p : String) (c : Bytes)
    (hfile : fileAt fs.files p = some c) (h : p ∉ fs.dirs) : p ∉ (mkdirAll fs d).2.dirs :=
  mkdirChain_not_mem fs (ancestors d) p (by rw [hfile]; rfl) h

theorem mkdirAll_after_write (fs : FS) (d p : String) (b : Bytes) :
    (mkdirAll { (mkdirAll fs d).2 with files := upsert (mkdirAll fs d).2.files p b } d).2 =
      { (mkdirAll fs d).2 with files := upsert (mkdirAll fs d).2.files p b } := by
  have h := mkdirChain_files_grow (mkdirAll fs d).2 (ancestors d)
    (upsert (mkdirAll fs d).2.files p b) (congrArg Prod.snd (mkdirAll_idem fs d))
    (fun q hq => fileAt_upsert_isSome _ _ _ _ hq)
  unfold mkdirAll at h ⊢
  rw [h]

theorem writeFile_flag_files (fs : FS) (files2 : List (String × Bytes)) (p : String)
    (b b2 : Bytes) : (writeFile { fs with files := files2 } p b2).1 = (writeFile fs p b).1 := by
  unfold writeFile parentWalk dirExists
  simp only []
  split <;> rfl

/-- Rendering a key whose source is readable: what a second render finds on the
state the first one left. -/
theorem second_render (fs : FS) (md art d : String) (content html : Bytes) (hne : md ≠ art)
    (hread : readFile fs md = some content) :
    readFile (mkdirAll fs d).2 md = some content ∧
      stat (mkdirAll fs d).2 md = true ∧
      readFile { (mkdirAll fs d).2 with files := upsert (mkdirAll fs d).2.files art html } md =
        some content ∧
      stat { (mkdirAll fs d).2 with files := upsert (mkdirAll fs d).2.files art html } md =
        true := by
  obtain ⟨hd, ha, hu, hf⟩ := (readFile_eq_some fs md content).1 hread
  have hfs := mkdirAll_files fs d
  have hnd := mkdirAll_not_mem fs d md content hf hd
  have hf1 : fileAt (mkdirAll fs d).2.files md = some content := by
    rw [hfs.1]
    exact hf
  have hu1 : md ∉ (mkdirAll fs d).2.unreadable := by
    rw [hfs.2.1]
    exact hu
  have hf2 : fileAt (upsert (mkdirAll fs d).2.files art html) md = some content := by
    rw [fileAt_upsert_ne _ _ _ _ hne]
    exact hf1
  refine ⟨(readFile_eq_some _ _ _).2 ⟨hnd, ha, hu1, hf1⟩, stat_of_file _ _ _ hf1,
    (readFile_eq_some _ _ _).2 ⟨hnd, ha, hu1, hf2⟩, stat_of_file _ _ _ hf2⟩

/-- A second call on the state the first call left behaves as the first one did. -/
theorem showDoc_twice (render : FS → String → Bool)
    (convert sanitize : Bytes → Bytes) (g : Globals) (ctx : Ctx) (fs : FS) :
    showDoc render convert sanitize g ctx (showDoc render convert sanitize g ctx fs).1 =
      showDoc render convert sanitize g ctx fs := by
  cases hstat : stat fs (g.MdDir ++ getActiveNav g ctx ++ ".md") with
  | false =>
    rw [showDoc_notFound render convert sanitize g ctx fs hstat]
    exact showDoc_notFound render convert sanitize g ctx fs hstat
  | true =>
    cases hread : readFile fs (g.MdDir ++ getActiveNav g ctx ++ ".md") with
    | none =>
      rw [showDoc_readError render convert sanitize g ctx fs hstat hread]
      exact showDoc_readError render convert sanitize g ctx fs hstat hread
    | some content =>
      obtain ⟨hread1, hstat1, hread2, hstat2⟩ := second_render fs
        (g.MdDir ++ getActiveNav g ctx ++ ".md") (ArticlesDir ++ getActiveNav g ctx ++ ".html")
        (pathDir (ArticlesDir ++ getActiveNav g ctx ++ ".html")) content
        (sanitize (convert content)) (md_ne_html _ _) hread
      have hidem := mkdirAll_idem fs (pathDir (ArticlesDir ++ getActiveNav g ctx ++ ".html"))
      cases hwrite : (writeFile
          (mkdirAll fs (pathDir (ArticlesDir ++ getActiveNav g ctx ++ ".html"))).2
          (ArticlesDir ++ getActiveNav g ctx ++ ".html") (sanitize (convert content))).1 with
      | false =>
        rw [showDoc_writeError render convert sanitize g ctx fs content hstat hread hwrite,
          writeFile_fail_state _ _ _ hwrite,
          showDoc_writeError render convert sanitize g ctx _ content hstat1 hread1
            (by rw [hidem]; exact hwrite),
          hidem, writeFile_fail_state _ _ _ hwrite]
      | true =>
        have hmk2 := mkdirAll_after_write fs
          (pathDir (ArticlesDir ++ getActiveNav g ctx ++ ".html"))
          (ArticlesDir ++ getActiveNav g ctx ++ ".html") (sanitize (convert content))
        have hwrite2 := (writeFile_flag_files
          (mkdirAll fs (pathDir (ArticlesDir ++ getActiveNav g ctx ++ ".html"))).2
          (upsert (mkdirAll fs (pathDir (ArticlesDir ++ getActiveNav g ctx ++ ".html"))).2.files
            (ArticlesDir ++ getActiveNav g ctx ++ ".html") (sanitize (convert content)))
          (ArticlesDir ++ getActiveNav g ctx ++ ".html")
          (sanitize (convert content)) (sanitize (convert content))).trans hwrite
        rw [showDoc_success render convert sanitize g ctx fs content hstat hread hwrite,
          writeFile_ok_state _ _ _ hwrite,
          showDoc_success render convert sanitize g ctx _ content hstat2 hread2
            (by rw [hmk2]; exact hwrite2),
          hmk2, writeFile_ok_state _ _ _ hwrite2]
        dsimp only
        rw [upsert_upsert]

theorem status_cases (render : FS → String → Bool)
    (convert sanitize : Bytes → Bytes) (g : Globals) (ctx : Ctx) (fs : FS) :
    ((showDoc render convert sanitize g ctx fs).2.statusCode = 404 →
        stat fs (g.MdDir ++ getActiveNav g ctx ++ ".md") = false) ∧
      ((showDoc render convert sanitize g ctx fs).2.statusCode = 404 ∨
        (showDoc render convert sanitize g ctx fs).2.statusCode = 500 ∨
        (showDoc render convert sanitize g ctx fs).2.statusCode = 200) := by
  cases hstat : stat fs (g.MdDir ++ getActiveNav g ctx ++ ".md") with
  | false =>
    rw [showDoc_notFound render convert sanitize g ctx fs hstat]
    simp
  | true =>
    cases hread : readFile fs (g.MdDir ++ getActiveNav g ctx ++ ".md") with
    | none =>
      rw [showDoc_readError render convert sanitize g ctx fs hstat hread]
      simp
    | some content =>
      cases hwrite : (writeFile
          (mkdirAll fs (pathDir (ArticlesDir ++ getActiveNav g ctx ++ ".html"))).2
          (ArticlesDir ++ getActiveNav g ctx ++ ".html") (sanitize (convert content))).1 with
      | false =>
        rw [showDoc_writeError render convert sanitize g ctx fs content hstat hread hwrite]
        simp
      | true =>
        rw [showDoc_success render convert sanitize g ctx fs content hstat hread hwrite]
        generalize render _ _ = r
        cases r <;> simp

/-! ## show: not found, success, classification -/

/-- C1: when the source file `MdDir + f + ".md"` does not exist (`os.Stat`
fails), `show` sets status 404, hands no template to the renderer and performs
no filesystem operation that writes: the state after the call is the state
before it, so no directory is created and no file is created or modified.  Its
only other effect is one line sent to the logger. -/
theorem show_missing_source (render : FS → String → Bool)
    (convert sanitize : Bytes → Bytes) (g : Globals) (ctx : Ctx)
    (fs : FS) (hstat : stat fs (g.MdDir ++ getActiveNav g ctx ++ ".md") = false) :
    (showDoc render convert sanitize g ctx fs).2.statusCode = 404 ∧
      (showDoc render convert sanitize g ctx fs).2.view = none ∧
      (showDoc render convert sanitize g ctx fs).1 = fs ∧
      (showDoc render convert sanitize g ctx fs).1.dirs = fs.dirs ∧
      (showDoc render convert sanitize g ctx fs).1.files = fs.files ∧
      (showDoc render convert sanitize g ctx fs).2.log =
        [LogLine.notFound (g.MdDir ++ getActiveNav g ctx ++ ".md") ctx.path] := by
  rw [showDoc_notFound render convert sanitize g ctx fs hstat]
  simp

theorem show_missing_source_witness :
    stat sampleFS (sampleGlobals.MdDir ++ getActiveNav sampleGlobals missingCtx ++ ".md") = false ∧
      (showDoc sampleRender sampleConvert sampleSanitize sampleGlobals missingCtx sampleFS).2.statusCode = 404 ∧
      (showDoc sampleRender sampleConvert sampleSanitize sampleGlobals missingCtx sampleFS).1 = sampleFS :=
  ⟨by decide,
    (show_missing_source sampleRender sampleConvert sampleSanitize sampleGlobals missingCtx sampleFS
      (by decide)).1,
    (show_missing_source sampleRender sampleConvert sampleSanitize sampleGlobals missingCtx sampleFS
      (by decide)).2.2.1⟩

/-- C2: when the source exists, reading `MdDir + f + ".md"` yields `content`
and the cache write succeeds, `show` leaves at `ArticlesDir + f + ".html"` a
file holding `sanitize (convert content)` whatever was there before, changes no
other file and hands that same path to the template renderer; the status is
200 when the renderer renders it and 500 when it does not. -/
theorem show_renders_to_cache (render : FS → String → Bool)
    (convert sanitize : Bytes → Bytes) (g : Globals) (ctx : Ctx)
    (fs : FS) (content : Bytes)
    (hstat : stat fs (g.MdDir ++ getActiveNav g ctx ++ ".md") = true)
    (hread : readFile fs (g.MdDir ++ getActiveNav g ctx ++ ".md") = some content)
    (hwrite : (writeFile (mkdirAll fs (pathDir (ArticlesDir ++ getActiveNav g ctx ++ ".html"))).2
      (ArticlesDir ++ getActiveNav g ctx ++ ".html") (sanitize (convert content))).1 = true) :
    fileAt (showDoc render convert sanitize g ctx fs).1.files
        (ArticlesDir ++ getActiveNav g ctx ++ ".html") = some (sanitize (convert content)) ∧
      (∀ q, q ≠ ArticlesDir ++ getActiveNav g ctx ++ ".html" →
        fileAt (showDoc render convert sanitize g ctx fs).1.files q = fileAt fs.files q) ∧
      (showDoc render convert sanitize g ctx fs).2.view =
        some (ArticlesDir ++ getActiveNav g ctx ++ ".html") ∧
      (showDoc render convert sanitize g ctx fs).2.statusCode =
        (if render (showDoc render convert sanitize g ctx fs).1
            (ArticlesDir ++ getActiveNav g ctx ++ ".html") = true then 200 else 500) := by
  rw [showDoc_success render convert sanitize g ctx fs content hstat hread hwrite,
    writeFile_ok_state _ _ _ hwrite]
  dsimp only
  refine ⟨?_, ?_, rfl, rfl⟩
  · rw [fileAt_upsert_self]
  · intro q hq
    rw [fileAt_upsert_ne _ _ _ _ hq, mkdirAll, (mkdirChain_files fs _).1]

theorem show_renders_to_cache_witness :
    fileAt (showDoc sampleRender sampleConvert sampleSanitize sampleGlobals introCtx sampleFS).1.files
        "cache/articles/guide/intro.html" = some [2, 1, 35, 32, 72, 101, 108, 108, 111] ∧
      (showDoc sampleRender sampleConvert sampleSanitize sampleGlobals introCtx sampleFS).2.view =
        some "cache/articles/guide/intro.html" :=
  ⟨(show_renders_to_cache sampleRender sampleConvert sampleSanitize sampleGlobals introCtx sampleFS
      [35, 32, 72, 101, 108, 108, 111] (by decide) (by decide) (by decide)).1,
    (show_renders_to_cache sampleRender sampleConvert sampleSanitize sampleGlobals introCtx sampleFS
      [35, 32, 72, 101, 108, 108, 111] (by decide) (by decide) (by decide)).2.2.1⟩

/-- C7, as stated, fails: for the key `tpl`, whose source holds a template
action, the source exists, the read succeeds and the cache write succeeds, yet
the status is 500, because the template engine does not render the artifact. -/
theorem show_render_failure :
    stat actionFS (sampleGlobals.MdDir ++ getActiveNav sampleGlobals tplCtx ++ ".md") = true ∧
      readFile actionFS (sampleGlobals.MdDir ++ getActiveNav sampleGlobals tplCtx ++ ".md") =
        some [123, 123, 32, 46, 78, 111, 112, 101] ∧
      (writeFile
        (mkdirAll actionFS
          (pathDir (ArticlesDir ++ getActiveNav sampleGlobals tplCtx ++ ".html"))).2
        (ArticlesDir ++ getActiveNav sampleGlobals tplCtx ++ ".html")
        (sampleSanitize (sampleConvert [123, 123, 32, 46, 78, 111, 112, 101]))).1 = true ∧
      (showDoc sampleRender sampleConvert sampleSanitize sampleGlobals tplCtx
        actionFS).2.statusCode = 500 := by
  refine ⟨?_, ?_, ?_, ?_⟩ <;> decide

/-- C7, amended: `show` ends in exactly one of three outcomes.  Status 404
exactly when the source does not exist; status 500 exactly when it exists and
the read fails, the cache write fails, or the template engine fails to render
the cache path; status 200 with the cache path rendered in every other case.
The cache path is handed to the renderer exactly when stat, read and write all
succeed, and a failed read leaves the filesystem untouched. -/
theorem show_outcomes (render : FS → String → Bool)
    (convert sanitize : Bytes → Bytes) (g : Globals) (ctx : Ctx) (fs : FS) :
    ((showDoc render convert sanitize g ctx fs).2.statusCode = 404 ↔
        stat fs (g.MdDir ++ getActiveNav g ctx ++ ".md") = false) ∧
      ((showDoc render convert sanitize g ctx fs).2.statusCode = 500 ↔
        stat fs (g.MdDir ++ getActiveNav g ctx ++ ".md") = true ∧
          (readFile fs (g.MdDir ++ getActiveNav g ctx ++ ".md") = none ∨
            ∃ content, readFile fs (g.MdDir ++ getActiveNav g ctx ++ ".md") = some content ∧
              ((writeFile (mkdirAll fs (pathDir (ArticlesDir ++ getActiveNav g ctx ++ ".html"))).2
                  (ArticlesDir ++ getActiveNav g ctx ++ ".html")
                  (sanitize (convert content))).1 = false ∨
                render
                  (writeFile
                    (mkdirAll fs (pathDir (ArticlesDir ++ getActiveNav g ctx ++ ".html"))).2
                    (ArticlesDir ++ getActiveNav g ctx ++ ".html")
                    (sanitize (convert content))).2
                  (ArticlesDir ++ getActiveNav g ctx ++ ".html") = false))) ∧
      (((showDoc render convert sanitize g ctx fs).2.statusCode = 200 ∧
          (showDoc render convert sanitize g ctx fs).2.view =
            some (ArticlesDir ++ getActiveNav g ctx ++ ".html")) ↔
        stat fs (g.MdDir ++ getActiveNav g ctx ++ ".md") = true ∧
          ∃ content, readFile fs (g.MdDir ++ getActiveNav g ctx ++ ".md") = some content ∧
            (writeFile (mkdirAll fs (pathDir (ArticlesDir ++ getActiveNav g ctx ++ ".html"))).2
              (ArticlesDir ++ getActiveNav g ctx ++ ".html")
              (sanitize (convert content))).1 = true ∧
            render
              (writeFile (mkdirAll fs (pathDir (ArticlesDir ++ getActiveNav g ctx ++ ".html"))).2
                (ArticlesDir ++ getActiveNav g ctx ++ ".html")
                (sanitize (convert content))).2
              (ArticlesDir ++ getActiveNav g ctx ++ ".html") = true) ∧
      ((showDoc render convert sanitize g ctx fs).2.statusCode = 404 ∨
        (showDoc render convert sanitize g ctx fs).2.statusCode = 500 ∨
        (showDoc render convert sanitize g ctx fs).2.statusCode = 200) ∧
      ((showDoc render convert sanitize g ctx fs).2.view =
          some (ArticlesDir ++ getActiveNav g ctx ++ ".html") ↔
        stat fs (g.MdDir ++ getActiveNav g ctx ++ ".md") = true ∧
          ∃ content, readFile fs (g.MdDir ++ getActiveNav g ctx ++ ".md") = some content ∧
            (writeFile (mkdirAll fs (pathDir (ArticlesDir ++ getActiveNav g ctx ++ ".html"))).2
              (ArticlesDir ++ getActiveNav g ctx ++ ".html")
              (sanitize (convert content))).1 = true) ∧
      (stat fs (g.MdDir ++ getActiveNav g ctx ++ ".md") = true →
        readFile fs (g.MdDir ++ getActiveNav g ctx ++ ".md") = none →
        (showDoc render convert sanitize g ctx fs).1 = fs) := by
  cases hstat : stat fs (g.MdDir ++ getActiveNav g ctx ++ ".md") with
  | false =>
    rw [showDoc_notFound render convert sanitize g ctx fs hstat]
    simp
  | true =>
    cases hread : readFile fs (g.MdDir ++ getActiveNav g ctx ++ ".md") with
    | none =>
      rw [showDoc_readError render convert sanitize g ctx fs hstat hread]
      simp
    | some content =>
      cases hwrite : (writeFile
          (mkdirAll fs (pathDir (ArticlesDir ++ getActiveNav g ctx ++ ".html"))).2
          (ArticlesDir ++ getActiveNav g ctx ++ ".html") (sanitize (convert content))).1 with
      | false =>
        rw [showDoc_writeError render convert sanitize g ctx fs content hstat hread hwrite]
        simp [hwrite]
      | true =>
        rw [showDoc_success render convert sanitize g ctx fs content hstat hread hwrite]
        cases hrender : render
            (writeFile (mkdirAll fs (pathDir (ArticlesDir ++ getActiveNav g ctx ++ ".html"))).2
              (ArticlesDir ++ getActiveNav g ctx ++ ".html") (sanitize (convert content))).2
            (ArticlesDir ++ getActiveNav g ctx ++ ".html") with
        | false => simp [hwrite, hrender]
        | true => simp [hwrite, hrender]

/-- A source path that is a directory: it exists, yet cannot be read. -/
theorem show_outcomes_witness :
    (showDoc sampleRender sampleConvert sampleSanitize sampleGlobals ⟨"guide", "/guide"⟩
        { sampleFS with dirs := "docs/guide.md" :: sampleFS.dirs }).1 =
      { sampleFS with dirs := "docs/guide.md" :: sampleFS.dirs } :=
  (show_outcomes sampleRender sampleConvert sampleSanitize sampleGlobals ⟨"guide", "/guide"⟩
    { sampleFS with dirs := "docs/guide.md" :: sampleFS.dirs }).2.2.2.2.2 (by decide) (by decide)

/-! ## Idempotence -/

/-- Apart from the cache artifact, `show` changes the contents of no file. -/
theorem showDoc_other_files (render : FS → String → Bool)
    (convert sanitize : Bytes → Bytes) (g : Globals) (ctx : Ctx)
    (fs : FS) (q : String) (hq : q ≠ ArticlesDir ++ getActiveNav g ctx ++ ".html") :
    fileAt (showDoc render convert sanitize g ctx fs).1.files q = fileAt fs.files q := by
  cases hstat : stat fs (g.MdDir ++ getActiveNav g ctx ++ ".md") with
  | false => rw [showDoc_notFound render convert sanitize g ctx fs hstat]
  | true =>
    cases hread : readFile fs (g.MdDir ++ getActiveNav g ctx ++ ".md") with
    | none => rw [showDoc_readError render convert sanitize g ctx fs hstat hread]
    | some content =>
      cases hwrite : (writeFile
          (mkdirAll fs (pathDir (ArticlesDir ++ getActiveNav g ctx ++ ".html"))).2
          (ArticlesDir ++ getActiveNav g ctx ++ ".html") (sanitize (convert content))).1 with
      | false =>
        rw [showDoc_writeError render convert sanitize g ctx fs content hstat hread hwrite,
          writeFile_fail_state _ _ _ hwrite, (mkdirAll_files fs _).1]
      | true =>
        rw [showDoc_success render convert sanitize g ctx fs content hstat hread hwrite,
          writeFile_ok_state _ _ _ hwrite]
        dsimp only
        rw [fileAt_upsert_ne _ _ _ _ hq, (mkdirAll_files fs _).1]

/-- C3: for a key whose source file exists, a second `show` right after the
first leaves the filesystem exactly as the first left it, hence the same bytes
in the cache artifact, and answers as the first did; neither call alters the
source file, and neither answers 404. -/
theorem show_idempotent (render : FS → String → Bool)
    (convert sanitize : Bytes → Bytes) (g : Globals) (ctx : Ctx) (fs : FS)
    (hsrc : stat fs (g.MdDir ++ getActiveNav g ctx ++ ".md") = true) :
    (showDoc render convert sanitize g ctx (showDoc render convert sanitize g ctx fs).1).1 =
        (showDoc render convert sanitize g ctx fs).1 ∧
      fileAt (showDoc render convert sanitize g ctx (showDoc render convert sanitize g ctx fs).1).1.files
          (ArticlesDir ++ getActiveNav g ctx ++ ".html") =
        fileAt (showDoc render convert sanitize g ctx fs).1.files
          (ArticlesDir ++ getActiveNav g ctx ++ ".html") ∧
      (showDoc render convert sanitize g ctx (showDoc render convert sanitize g ctx fs).1).2 =
        (showDoc render convert sanitize g ctx fs).2 ∧
      fileAt (showDoc render convert sanitize g ctx fs).1.files
          (g.MdDir ++ getActiveNav g ctx ++ ".md") =
        fileAt fs.files (g.MdDir ++ getActiveNav g ctx ++ ".md") ∧
      (showDoc render convert sanitize g ctx fs).2.statusCode ≠ 404 := by
  have h := showDoc_twice render convert sanitize g ctx fs
  refine ⟨by rw [h], by rw [h], by rw [h], ?_, ?_⟩
  · exact showDoc_other_files render convert sanitize g ctx fs _ (md_ne_html _ _)
  · intro h404
    have := (status_cases render convert sanitize g ctx fs).1 h404
    rw [hsrc] at this
    exact Bool.noConfusion this

theorem show_idempotent_witness :
    stat sampleFS (sampleGlobals.MdDir ++ getActiveNav sampleGlobals introCtx ++ ".md") = true ∧
      (showDoc sampleRender sampleConvert sampleSanitize sampleGlobals introCtx
          (showDoc sampleRender sampleConvert sampleSanitize sampleGlobals introCtx sampleFS).1).1 =
        (showDoc sampleRender sampleConvert sampleSanitize sampleGlobals introCtx sampleFS).1 :=
  ⟨by decide,
    (show_idempotent sampleRender sampleConvert sampleSanitize sampleGlobals introCtx sampleFS
      (by decide)).1⟩

/-! ## getActiveNav and parsePort -/

/-- C4: `getActiveNav` returns the configured default `Index` when the request
path is empty and the request path itself, unchanged, when it is not; the
result depends on nothing but these two strings. -/
theorem getActiveNav_resolves (g : Globals) (ctx : Ctx) :
    (ctx.paramF = "" → getActiveNav g ctx = g.Index) ∧
      (ctx.paramF ≠ "" → getActiveNav g ctx = ctx.paramF) ∧
      (∀ (g2 : Globals) (ctx2 : Ctx), g2.Index = g.Index → ctx2.paramF = ctx.paramF →
        getActiveNav g2 ctx2 = getActiveNav g ctx) := by
  refine ⟨?_, ?_, ?_⟩
  · intro h
    simp [getActiveNav, h]
  · intro h
    simp [getActiveNav, h]
  · intro g2 ctx2 h1 h2
    simp [getActiveNav, h1, h2]

theorem getActiveNav_resolves_witness :
    getActiveNav ⟨"docs/", "dev", "Blog", "home"⟩ rootCtx = "home" ∧
      getActiveNav ⟨"docs/", "dev", "Blog", "home"⟩ introCtx = "guide/intro" :=
  ⟨(getActiveNav_resolves ⟨"docs/", "dev", "Blog", "home"⟩ rootCtx).1 (by decide),
    (getActiveNav_resolves ⟨"docs/", "dev", "Blog", "home"⟩ introCtx).2.1 (by decide)⟩

/-- What `parsePort` computes: the flag when it is set and lies in 1..65534,
the default 5006 otherwise. -/
theorem parsePort_eq (isSet : Bool) (flag : Int) :
    parsePort isSet flag =
      if isSet = true ∧ 1 ≤ flag ∧ flag ≤ 65534 then flag else 5006 := by
  unfold parsePort DefaultPort
  cases isSet with
  | false => simp
  | true =>
    simp only [if_true, true_and]
    by_cases h : flag ≤ 0 ∨ flag ≥ 65535
    · rw [if_pos h, if_neg (by omega)]
    · rw [if_neg h, if_pos (by omega)]

/-- C8: with the port flag set to 65535, the top of the TCP port range,
`parsePort` returns the default 5006 and not the configured port. -/
theorem parsePort_top_of_range :
    parsePort true 65535 = 5006 ∧ parsePort true 65534 = 65534 := by
  constructor <;> decide

/-! ## Navigation -/

theorem getFirstNav_of_descends (v leaf : Node) (h : SpecDescendsTo v leaf) :
    getFirstNav v = some leaf := by
  induction h with
  | here n hn =>
    obtain ⟨name, link, isDir, children⟩ := n
    simp only at hn
    subst hn
    unfold getFirstNav
    simp
  | down n c leaf rest hn hc _ ih =>
    obtain ⟨name, link, isDir, children⟩ := n
    simp only at hn hc
    subst hn hc
    unfold getFirstNav
    simpa using ih

theorem collect_inner {ε : Type} (sm : Node → ε) (acc : List ε) (xs : List Node) :
    xs.foldl (fun navs item => navs ++ [sm item]) acc = acc ++ xs.map sm := by
  induction xs generalizing acc with
  | nil => simp
  | cons x xs ih => simp [ih]

theorem collect_outer {ε : Type} (sm : Node → ε) (acc : List ε) (l : List Node) :
    l.foldl (fun navs v => v.children.foldl (fun navs item => navs ++ [sm item]) navs) acc
      = acc ++ (l.flatMap Node.children).map sm := by
  induction l generalizing acc with
  | nil => simp
  | cons v l ih =>
    rw [List.foldl_cons, ih, collect_inner, List.flatMap_cons, List.map_append, List.append_assoc]

theorem len_flatMap (l : List Node) :
    (l.flatMap Node.children).length = (l.map (fun v => v.children.length)).sum := by
  induction l with
  | nil => simp
  | cons v l ih => simp [List.flatMap_cons, ih]

theorem trimPrefix_slash_none (K : String) (h : K.data.head? ≠ some '/') :
    trimPrefix K "/" = K := by
  unfold trimPrefix
  cases hK : K.data with
  | nil => simp [List.isPrefixOf]
  | cons c cs =>
    rw [hK] at h
    simp at h
    have : ¬ ('/' = c) := fun e => h e.symm
    simp [List.isPrefixOf, this]

theorem trimPrefix_slash_some (K : String) : trimPrefix ("/" ++ K) "/" = K := by
  unfold trimPrefix
  simp [List.isPrefixOf]

theorem getNavs_of_first {ε : Type} (sm : Node → ε) (tree v first : Node) (rest : List Node)
    (hroot : tree.children = v :: rest) (hfirst : getFirstNav v = some first) :
    getNavs sm tree = some ((tree.children.flatMap Node.children).map sm, first) := by
  unfold getNavs collectNavs
  rw [collect_outer]
  simp [hroot, hfirst]

theorem getNavs_some {ε : Type} (sm : Node → ε) (tree : Node) (navs : List ε) (first : Node)
    (h : getNavs sm tree = some (navs, first)) :
    navs = (tree.children.flatMap Node.children).map sm ∧
      ∃ v rest, tree.children = v :: rest ∧ getFirstNav v = some first := by
  unfold getNavs collectNavs at h
  rw [collect_outer] at h
  cases hc : tree.children with
  | nil => simp [hc] at h
  | cons v rest =>
    cases hf : getFirstNav v with
    | none => simp [hc, hf] at h
    | some f =>
      simp [hc, hf] at h
      exact ⟨by rw [← h.1]; simp, v, rest, rfl, by rw [← h.2]; exact hf⟩

/-- C9: the entries `getNavs` returns are exactly the children of the root's
first-level groupings, concatenated in the explorer's order, each mapped
through `structs.Map`: one entry per second-level node and none for a
grouping itself, so their number is the sum of the groupings' child counts.
`getNavs` returns them whenever the first grouping leads to a first
document. -/
theorem getNavs_entries {ε : Type} (structsMap : Node → ε) (tree : Node) :
    (∀ v rest first, tree.children = v :: rest → getFirstNav v = some first →
        getNavs structsMap tree =
          some ((tree.children.flatMap Node.children).map structsMap, first)) ∧
      (∀ navs first, getNavs structsMap tree = some (navs, first) →
        navs = (tree.children.flatMap Node.children).map structsMap ∧
          navs.length = (tree.children.map (fun v => v.children.length)).sum) := by
  refine ⟨fun v rest first h1 h2 => getNavs_of_first structsMap tree v first rest h1 h2, ?_⟩
  intro navs first h
  have h1 := (getNavs_some structsMap tree navs first h).1
  refine ⟨h1, ?_⟩
  rw [h1, List.length_map, len_flatMap]

theorem getNavs_entries_witness :
    getNavs Node.link docsTree =
      some (["/guide", "/notes"], ⟨"intro", "/guide/intro", false, []⟩) :=
  (getNavs_entries Node.link docsTree).1 _ _ _ rfl rfl

/-- C6: on a root without groupings, and on a root whose first grouping is a
directory without children, `getNavs` panics (index out of range) instead of
returning an empty list and a sentinel; `getFirstNav` panics on a directory
without children. -/
theorem getNavs_panics_on_empty :
    getNavs Node.link emptyRoot = none ∧ getNavs Node.link emptyGrouping = none ∧
      getFirstNav ⟨"docs", "", true, []⟩ = none := by
  refine ⟨rfl, rfl, rfl⟩

theorem middleware_some {ε : Type} (sm : Node → ε) (auto : Bool) (g : Globals) (tree : Node)
    (ctx : Ctx) (navs : List ε) (first : Node) (h : getNavs sm tree = some (navs, first)) :
    ∃ vd, middleware sm auto g tree ctx =
        some ({ g with Index := if auto = true then trimPrefix first.link "/" else g.Index }, vd) ∧
      vd.activeNav =
        getActiveNav { g with Index := if auto = true then trimPrefix first.link "/" else g.Index }
          ctx ∧ vd.nav = navs := by
  unfold middleware
  rw [h]
  cases auto with
  | false => simp
  | true =>
    by_cases hi : g.Index = trimPrefix first.link "/"
    · refine ⟨⟨g.Title, navs, getActiveNav g ctx, LayoutFile⟩, ?_, ?_, rfl⟩
      · simp [hi]
        rw [← hi]
      · simp only [if_true]
        rw [← hi]
    · simp [hi]

theorem middleware_none {ε : Type} (sm : Node → ε) (auto : Bool) (g : Globals) (tree : Node)
    (ctx : Ctx) (h : getNavs sm tree = none) : middleware sm auto g tree ctx = none := by
  unfold middleware
  rw [h]

/-- C5: with no default document configured, when descending from the first
grouping through first children reaches a leaf whose link is the key `K`
(with or without the leading slash the middleware trims), the middleware
serving an empty request path sets the active key to `K`, and `Index` with
it, on that very request. -/
theorem default_resolution {ε : Type} (structsMap : Node → ε) (g : Globals) (tree v leaf : Node)
    (rest : List Node) (ctx : Ctx) (K : String)
    (hcfg : g.Index = "") (hroot : tree.children = v :: rest) (hleaf : SpecDescendsTo v leaf)
    (hK : (leaf.link = K ∧ K.data.head? ≠ some '/') ∨ leaf.link = "/" ++ K)
    (hpath : ctx.paramF = "") :
    ∃ vd, middleware structsMap (setIndexAuto g) g tree ctx = some ({ g with Index := K }, vd) ∧
      vd.activeNav = K := by
  have hfirst := getFirstNav_of_descends v leaf hleaf
  have hnavs := getNavs_of_first structsMap tree v leaf rest hroot hfirst
  have htrim : trimPrefix leaf.link "/" = K := by
    rcases hK with ⟨h1, h2⟩ | h1
    · rw [h1]
      exact trimPrefix_slash_none K h2
    · rw [h1]
      exact trimPrefix_slash_some K
  obtain ⟨vd, h1, h2, _⟩ := middleware_some structsMap (setIndexAuto g) g tree ctx _ leaf hnavs
  have hauto : setIndexAuto g = true := by simp [setIndexAuto, hcfg]
  rw [hauto] at h1 h2 ⊢
  simp only [if_true, htrim] at h1 h2
  refine ⟨vd, h1, ?_⟩
  rw [h2]
  simp [getActiveNav, hpath]

theorem default_resolution_witness :
    ∃ vd, middleware Node.link (setIndexAuto sampleGlobals) sampleGlobals docsTree rootCtx =
        some ({ sampleGlobals with Index := "guide/intro" }, vd) ∧
      vd.activeNav = "guide/intro" :=
  default_resolution Node.link sampleGlobals docsTree _ ⟨"intro", "/guide/intro", false, []⟩ _
    rootCtx "guide/intro" rfl rfl
    (SpecDescendsTo.down _ _ _ _ rfl rfl
      (SpecDescendsTo.down _ _ _ _ rfl rfl (SpecDescendsTo.here _ rfl)))
    (Or.inr (by decide)) rfl

/-! ## The default document across requests -/

theorem serve_append {ε : Type} (sm : Node → ε) (auto : Bool) (g : Globals)
    (a b : List (Node × Ctx)) :
    serve sm auto g (a ++ b) = serve sm auto (serve sm auto g a) b := by
  induction a generalizing g with
  | nil => simp [serve]
  | cons r a ih =>
    obtain ⟨tree, ctx⟩ := r
    simp only [List.cons_append, serve]
    cases middleware sm auto g tree ctx with
    | none => exact ih g
    | some r1 => exact ih r1.1

theorem serve_step {ε : Type} (sm : Node → ε) (auto : Bool) (g : Globals) (tree : Node)
    (ctx : Ctx) (rest : List (Node × Ctx)) :
    serve sm auto g ((tree, ctx) :: rest) =
      match getNavs sm tree with
      | none => serve sm auto g rest
      | some (_, first) =>
        serve sm auto
          { g with Index := if auto = true then trimPrefix first.link "/" else g.Index } rest := by
  cases h : getNavs sm tree with
  | none => simp [serve, middleware_none sm auto g tree ctx h]
  | some r =>
    obtain ⟨navs, first⟩ := r
    obtain ⟨vd, h1, _⟩ := middleware_some sm auto g tree ctx navs first h
    simp [serve, h1]

theorem serve_configured {ε : Type} (sm : Node → ε) (g : Globals) (reqs : List (Node × Ctx)) :
    serve sm false g reqs = g := by
  induction reqs with
  | nil => simp [serve]
  | cons r reqs ih =>
    obtain ⟨tree, ctx⟩ := r
    rw [serve_step]
    cases h : getNavs sm tree with
    | none => simpa using ih
    | some r => simpa using ih

theorem serve_stable {ε : Type} (sm : Node → ε) (L : String) (reqs : List (Node × Ctx))
    (hL : ∀ r ∈ reqs, ∀ navs first, getNavs sm r.1 = some (navs, first) →
      trimPrefix first.link "/" = L) (g : Globals) (hg : g.Index = "" ∨ g.Index = L) :
    (serve sm true g reqs).Index = "" ∨ (serve sm true g reqs).Index = L := by
  induction reqs generalizing g with
  | nil => simpa [serve] using hg
  | cons r reqs ih =>
    obtain ⟨tree, ctx⟩ := r
    have hrest : ∀ r ∈ reqs, ∀ navs first, getNavs sm r.1 = some (navs, first) →
        trimPrefix first.link "/" = L := fun r hr => hL r (List.mem_cons_of_mem _ hr)
    rw [serve_step]
    cases h : getNavs sm tree with
    | none => exact ih hrest g hg
    | some r =>
      obtain ⟨navs, first⟩ := r
      have := hL (tree, ctx) (List.mem_cons_self _ _) navs first h
      exact ih hrest _ (Or.inr (by simp [this]))

/-- C10, as stated, fails: with no default configured, a first request seeing
a tree whose first document is `guide/intro` sets `Index` to it, and a later
request seeing a tree whose first document is `about` assigns `Index` anew. -/
theorem index_reassigned_by_later_request :
    (runWeb Node.link sampleGlobals [(docsTree, rootCtx)]).Index = "guide/intro" ∧
      (runWeb Node.link sampleGlobals [(docsTree, rootCtx), (docsTreeLater, rootCtx)]).Index =
        "about" := by
  constructor <;> decide

/-- C10, amended: a configured default is never changed by the middleware.
With none configured, every request whose navigation build returns leaves
`Index` equal to the first link (leading slash trimmed) of the tree that
request saw, a request whose build panics leaves `Index` as it was, and as
long as all trees seen have the same first link `L`, `Index` is either still
unset or `L`. -/
theorem index_follows_first_link {ε : Type} (structsMap : Node → ε) (g : Globals)
    (reqs : List (Node × Ctx)) :
    (g.Index ≠ "" → (runWeb structsMap g reqs).Index = g.Index) ∧
      (g.Index = "" → ∀ tree ctx navs first, getNavs structsMap tree = some (navs, first) →
        (runWeb structsMap g (reqs ++ [(tree, ctx)])).Index = trimPrefix first.link "/") ∧
      (g.Index = "" → ∀ tree ctx, getNavs structsMap tree = none →
        (runWeb structsMap g (reqs ++ [(tree, ctx)])).Index = (runWeb structsMap g reqs).Index) ∧
      (g.Index = "" → ∀ L, (∀ r ∈ reqs, ∀ navs first,
          getNavs structsMap r.1 = some (navs, first) → trimPrefix first.link "/" = L) →
        (runWeb structsMap g reqs).Index = "" ∨ (runWeb structsMap g reqs).Index = L) := by
  refine ⟨?_, ?_, ?_, ?_⟩
  · intro h
    have : setIndexAuto g = false := by simp [setIndexAuto, h]
    rw [runWeb, this, serve_configured]
  · intro h tree ctx navs first hn
    have : setIndexAuto g = true := by simp [setIndexAuto, h]
    rw [runWeb, this, serve_append, serve_step, hn]
    simp [serve]
  · intro h tree ctx hn
    have : setIndexAuto g = true := by simp [setIndexAuto, h]
    rw [runWeb, runWeb, this, serve_append, serve_step, hn]
    simp [serve]
  · intro h L hL
    have : setIndexAuto g = true := by simp [setIndexAuto, h]
    rw [runWeb, this]
    exact serve_stable structsMap L reqs hL g (Or.inl h)

theorem index_follows_first_link_witness :
    (runWeb Node.link sampleGlobals ([(docsTree, rootCtx)] ++ [(docsTreeLater, introCtx)])).Index =
      trimPrefix "/about" "/" :=
  (index_follows_first_link Node.link sampleGlobals [(docsTree, rootCtx)]).2.1 rfl
    docsTreeLater introCtx _ _ rfl

end MarkdownBlog
